import Mathlib

/-!
Shallow embedding of the `pyrameter` search-space core
(`src/pyrameter/searchspace.py` and `src/pyrameter/methods/bayes.py`).

Conventions used throughout:
* Python floats are idealized as rationals `ℚ`; the IEEE special values
  that actually matter to the claims (numpy `inf`/`nan` produced by the
  suppressed division in the expected-improvement computation) are modelled
  explicitly by the `PFloat` type below.
* Python exceptions are modelled by `Except String`, the string naming the
  Python exception class that the line in question raises
  (for example "IndexError", "TypeError", "ZeroDivisionError", "ValueError").
* Randomness (the random sampler, `Domain.generate`) and the fitted
  Gaussian-process regressor are external effects; they enter the embedding
  as oracle parameters, so every definition stays executable.
* The classes `Domain` and `Trial` and the function `random_search` live in
  modules of this repository that are not among the sources here
  (`pyrameter/domains/base.py`, `pyrameter/trial.py`,
  `pyrameter/methods/random.py`); they are modelled from the spec where the
  sources consume them, as indicated by doc comments.
-/

namespace Pyrameter

/-- Modelled from the spec: the external `Domain` primitive
(`pyrameter/domains/base.py`, not among these sources) is consumed as a
capability set: a strict total order for canonical sorting (by identity,
modelled as a `Nat` field), a `complexity` scalar, and a deterministic
`map_to_domain : value → numeric`.  `generate()` is random and enters only
through oracles. -/
structure Domain where
  id : Nat
  complexity : ℚ
  mapToDomain : ℚ → ℚ

instance : Inhabited Domain := ⟨⟨0, 1, fun q => q⟩⟩

/-- Modelled from the spec: the external `Trial` record
(`pyrameter/trial.py`, not among these sources): generated hyperparameter
vector, optional result payload, optional scalar objective, optional error
message, and a dirty/needs-persistence flag.  The process-unique id and the
non-owning back-reference to the Space (never used to mutate it) are
omitted. -/
structure Trial where
  hyperparameters : List ℚ
  results : Option ℚ
  objective : Option ℚ
  errmsg : Option String
  dirty : Bool
  deriving DecidableEq

/-- One step of stable insertion sort: insert `x` before the first element
`y` with `¬ lt y x`.  This reproduces the ordering contract of Python's
stable `list.sort` for a strict comparator `lt`. -/
def insIns (lt : α → α → Bool) (x : α) : List α → List α
  | [] => [x]
  | y :: ys => if lt y x then y :: insIns lt x ys else x :: y :: ys

/-- Stable insertion sort modelling Python's stable `sorted`/`list.sort`
with strict comparator `lt` (earlier elements win ties). -/
def sortBy (lt : α → α → Bool) : List α → List α
  | [] => []
  | x :: xs => insIns lt x (sortBy lt xs)

/-- The comparator `Domain.__lt__` used by `self.domains.sort()`:
the canonical strict total order on Domains (by identity). -/
def domLt (a b : Domain) : Bool := decide (a.id < b.id)

/-- `SearchSpace.__init__` state: `id` (drawn from the metaclass counter,
threaded here as an explicit argument), `exp_key`, the trial list, the two
cache fields `_complexity` and `_uncertainty`, the sorted domain list, and
`done`. -/
structure SearchSpace where
  id : Nat
  exp_key : String
  trials : List Trial
  _complexity : Option ℚ
  _uncertainty : Option ℚ
  domains : List Domain
  done : Bool

/-- `SearchSpace.__init__(domains, exp_key)`: stores `domains if domains is
not None else []`, sorted in place by the Domain order, with both caches
`None` and no trials.  `nid` is the value drawn from the per-class counter
`next(self.__class__._counter)`. -/
def SearchSpace.init (nid : Nat) (domains : Option (List Domain)) (exp_key : String) : SearchSpace :=
  { id := nid
    exp_key := exp_key
    trials := []
    _complexity := none
    _uncertainty := none
    domains := sortBy domLt (domains.getD [])
    done := false }

/-- `SearchSpace.__eq__`: equal length of domain lists and pairwise equal
domains (`zip` + `all`). -/
def spaceEq (a b : SearchSpace) : Prop :=
  a.domains.length = b.domains.length ∧ ∀ p ∈ a.domains.zip b.domains, p.1 = p.2

/-- The sort key `lambda x: x.objective` used by `optimum`; on the filtered
list every objective is present, so the default is never read. -/
def objKey (t : Trial) : ℚ := t.objective.getD 0

/-- The list `[t for t in self.trials if t.objective is not None]` filtered
inside `optimum`. -/
def objBearing (s : SearchSpace) : List Trial :=
  s.trials.filter (fun t => t.objective.isSome)

/-- `SearchSpace.optimum(mode)`: stable-sorts the objective-bearing trials
by objective (descending when `mode == 'max'`) and takes element `[0]`;
indexing an empty sorted list raises `IndexError`. -/
def SearchSpace.optimum (s : SearchSpace) (mode : String) : Except String Trial :=
  let lt : Trial → Trial → Bool := fun a b =>
    if mode = "max" then decide (objKey b < objKey a) else decide (objKey a < objKey b)
  match sortBy lt (objBearing s) with
  | [] => .error "IndexError"
  | t :: _ => .ok t

/-- One row of `SearchSpace.to_array`: the loop body
`vec = [self.domains[j].map_to_domain(result.hyperparameters[j]) for j in
range(len(self.domains))]; vec.append(result.objective); out[i] += vec`.
Accessing `hyperparameters[j]` past the end raises `IndexError`; adding a
row whose trailing entry is Python `None` (an unset objective) to the
`float32` buffer raises `TypeError`. -/
def trialRow (doms : List Domain) (t : Trial) : Except String (List ℚ) :=
  if doms.length ≤ t.hyperparameters.length then
    match t.objective with
    | some o =>
        .ok (((List.range doms.length).map
          (fun j => (doms.getD j default).mapToDomain (t.hyperparameters.getD j 0))) ++ [o])
    | none => .error "TypeError"
  else .error "IndexError"

/-- The pure value of a well-formed `to_array` row (every objective set,
hyperparameter vector long enough): domain-mapped features in domain order
followed by the objective. -/
def trialRowFn (doms : List Domain) (t : Trial) : List ℚ :=
  ((List.range doms.length).map
    (fun j => (doms.getD j default).mapToDomain (t.hyperparameters.getD j 0))) ++ [t.objective.getD 0]

/-- `SearchSpace.to_array()`: `None` when there are no trials, otherwise the
row-per-trial matrix; the first problematic trial raises. -/
def SearchSpace.to_array (s : SearchSpace) : Except String (Option (List (List ℚ))) :=
  if s.trials.length > 0 then
    (s.trials.mapM (trialRow s.domains)).map some
  else
    .ok none

/-- Modelled from the spec: `SearchSpace.objective`, referenced by
`bayes_opt` as `space.objective` but defined in a module that is not among
these sources — the objective values of the Trials that have one (the
spec's "Trials with an objective", whose count drives the warm-up gate and
whose values form the label vector). -/
def SearchSpace.objective (s : SearchSpace) : List ℚ :=
  s.trials.filterMap (fun t => t.objective)

/-- Modelled from the spec: the Domain JSON form is opaque to this core and
round-trips exactly (`Domain` "knows how to map a generated value to/from a
numeric encoding ... and JSON round-trip"), so it is represented by the
Domain itself. -/
def DomainJson := Domain

/-- Modelled from the spec: external `Domain` JSON encoding. -/
def Domain.to_json (d : Domain) : DomainJson := d

/-- Modelled from the spec: external `Domain.from_json`, inverse of
`Domain.to_json`. -/
def Domain.from_json (j : DomainJson) : Domain := j

/-- The fields of a Trial's JSON form that `SearchSpace.from_json` reads:
`t['hyperparameters']`, `t['results']`, `t['objective']`, `t['errmsg']`. -/
structure TrialJson where
  hyperparameters : List ℚ
  results : Option ℚ
  objective : Option ℚ
  errmsg : Option String
  deriving DecidableEq

/-- Modelled from the spec: external `Trial.to_json`, exporting the
attributes that `SearchSpace.from_json` reads back. -/
def Trial.to_json (t : Trial) : TrialJson :=
  { hyperparameters := t.hyperparameters
    results := t.results
    objective := t.objective
    errmsg := t.errmsg }

/-- The JSON-compatible representation built by `SearchSpace.to_json`
(full mode, `simplify=False`): the `exp_key`, the two cache fields exactly
as cached (possibly `None`), and the per-item converted domains and trials.
The `ThreadPool.map` collects results in input order, so it is embedded as
`List.map`. -/
structure SSJson where
  exp_key : String
  complexity : Option ℚ
  uncertainty : Option ℚ
  domains : List DomainJson
  trials : List TrialJson

/-- `SearchSpace.to_json(simplify=False)`. -/
def SearchSpace.to_json (s : SearchSpace) : SSJson :=
  { exp_key := s.exp_key
    complexity := s._complexity
    uncertainty := s._uncertainty
    domains := s.domains.map Domain.to_json
    trials := s.trials.map Trial.to_json }

/-- `SearchSpace.from_json(obj)`: rebuild the domains, construct the space
through `__init__` (which re-sorts them and draws a fresh id `nid`),
rebuild each trial with `dirty = False`, replace the trial list, and
restore the two cache fields verbatim. -/
def SearchSpace.from_json (nid : Nat) (obj : SSJson) : SearchSpace :=
  let domains := obj.domains.map Domain.from_json
  let sp := SearchSpace.init nid (some domains) obj.exp_key
  let trials := obj.trials.map (fun t =>
    { hyperparameters := t.hyperparameters
      results := t.results
      objective := t.objective
      errmsg := t.errmsg
      dirty := false : Trial })
  { sp with trials := trials, _complexity := obj.complexity, _uncertainty := obj.uncertainty }

/-- The product `functools.reduce(operator.mul, map(lambda d: d.complexity,
self.domains), 1.0)` computed by the `complexity` property. -/
def prodComplexity (doms : List Domain) : ℚ :=
  doms.foldl (fun a d => a * d.complexity) 1

/-- Reading the `complexity` property: return the cache if set, otherwise
compute the product, store it in `_complexity` and return it. -/
def SearchSpace.complexityRead (s : SearchSpace) : ℚ × SearchSpace :=
  match s._complexity with
  | some c => (c, s)
  | none =>
      let p := prodComplexity s.domains
      (p, { s with _complexity := some p })

/-- Reading the `uncertainty` property.  With more than 10 recorded trials
the modeling branch runs `self.to_array()` (whose exception, if any,
propagates) and then evaluates `int(np.floor(labels.shape * 0.8))`, which
multiplies the shape tuple by a float and therefore raises `TypeError`
before any bootstrap iteration; with at most 10 trials it stores and
returns the constant 1. -/
def SearchSpace.uncertaintyRead (s : SearchSpace) : Except String (ℚ × SearchSpace) :=
  if s.trials.length > 10 then
    match s.to_array with
    | .error e => .error e
    | .ok _ => .error "TypeError"
  else
    .ok (1, { s with _uncertainty := some 1 })

/-- Numpy double values as seen by the expected-improvement computation:
a finite value (idealized as a rational), the two infinities produced by
the suppressed division `1/0`, and `nan` from `0/0`.  With
`np.errstate(divide='ignore')` (and numpy's default warn-only policy for
invalid operations) none of these raises. -/
inductive PFloat where
  | fin (q : ℚ)
  | inf
  | ninf
  | nan
  deriving DecidableEq

namespace PFloat

/-- IEEE addition on `PFloat`. -/
def padd : PFloat → PFloat → PFloat
  | nan, _ => nan
  | _, nan => nan
  | fin a, fin b => fin (a + b)
  | fin _, inf => inf
  | inf, fin _ => inf
  | fin _, ninf => ninf
  | ninf, fin _ => ninf
  | inf, inf => inf
  | ninf, ninf => ninf
  | inf, ninf => nan
  | ninf, inf => nan

/-- IEEE negation on `PFloat`. -/
def pneg : PFloat → PFloat
  | fin a => fin (-a)
  | inf => ninf
  | ninf => inf
  | nan => nan

/-- IEEE subtraction on `PFloat`. -/
def psub (a b : PFloat) : PFloat := padd a (pneg b)

/-- IEEE multiplication on `PFloat` (`0 * inf = nan`). -/
def pmul : PFloat → PFloat → PFloat
  | nan, _ => nan
  | _, nan => nan
  | fin a, fin b => fin (a * b)
  | fin a, inf => if 0 < a then inf else if a < 0 then ninf else nan
  | inf, fin a => if 0 < a then inf else if a < 0 then ninf else nan
  | fin a, ninf => if 0 < a then ninf else if a < 0 then inf else nan
  | ninf, fin a => if 0 < a then ninf else if a < 0 then inf else nan
  | inf, inf => inf
  | ninf, ninf => inf
  | inf, ninf => ninf
  | ninf, inf => ninf

/-- Numpy division on `PFloat` under `errstate(divide='ignore')`:
`x/0` is `±inf` for `x ≠ 0` and `nan` for `x = 0`; no exception. -/
def pdiv : PFloat → PFloat → PFloat
  | nan, _ => nan
  | _, nan => nan
  | fin a, fin b =>
      if b = 0 then (if a = 0 then nan else if 0 < a then inf else ninf)
      else fin (a / b)
  | fin _, inf => fin 0
  | fin _, ninf => fin 0
  | inf, fin b => if 0 ≤ b then inf else ninf
  | ninf, fin b => if 0 ≤ b then ninf else inf
  | inf, inf => nan
  | ninf, ninf => nan
  | inf, ninf => nan
  | ninf, inf => nan

end PFloat

/-- `scipy.stats.norm.cdf` lifted to `PFloat`: `cdfF` is its (abstract)
restriction to finite arguments; `cdf(inf) = 1`, `cdf(-inf) = 0`,
`cdf(nan) = nan`. -/
def normCdf (cdfF : ℚ → ℚ) : PFloat → PFloat
  | .fin q => .fin (cdfF q)
  | .inf => .fin 1
  | .ninf => .fin 0
  | .nan => .nan

/-- `scipy.stats.norm.pdf` lifted to `PFloat`: `pdfF` is its (abstract)
restriction to finite arguments; `pdf(±inf) = 0`, `pdf(nan) = nan`. -/
def normPdf (pdfF : ℚ → ℚ) : PFloat → PFloat
  | .fin q => .fin (pdfF q)
  | .inf => .fin 0
  | .ninf => .fin 0
  | .nan => .nan

/-- The per-candidate scoring step of `bayes_opt` (numpy broadcasts the
array expressions elementwise): `gamma = (mu - best) / sigma` with the
division-by-zero warning suppressed, `ei = (mu - gamma) * norm.cdf(gamma) +
sigma * norm.pdf(gamma)`, and then the mask `ei[sigma == 0] = 0`. -/
def eiCand (cdfF pdfF : ℚ → ℚ) (best mu sigma : ℚ) : PFloat :=
  let m : PFloat := .fin mu
  let sg : PFloat := .fin sigma
  let gamma := PFloat.pdiv (PFloat.psub m (.fin best)) sg
  let raw := PFloat.padd (PFloat.pmul (PFloat.psub m gamma) (normCdf cdfF gamma))
                         (PFloat.pmul sg (normPdf pdfF gamma))
  if sigma = 0 then .fin 0 else raw

/-- The scoring step applied across the candidate axis (`mu`, `sigma` are
the vectors returned by `gp.predict(..., return_std=True)`). -/
def eiVec (cdfF pdfF : ℚ → ℚ) (best : ℚ) (mus sigmas : List ℚ) : List PFloat :=
  List.zipWith (fun m sg => eiCand cdfF pdfF best m sg) mus sigmas

/-- `bayes_opt(space, n_samples, warm_up, **gp_kws)` from
`src/pyrameter/methods/bayes.py`, with its effectful collaborators as
oracles: `rand` is the vector `random_search(space)` would return, `gen i`
the `i`-th `space.generate()` candidate, `gp trainX trainY testX` the
`(mu, sigma)` prediction of the fitted regressor, and `cdfF`/`pdfF` the
finite restrictions of `scipy.stats.norm.cdf`/`pdf`.

Control flow translated line by line:
* the warm-up gate `len(space.objective) < warm_up or
  len(space.objective) % warm_up == 0` short-circuits, and the Python `%`
  (floor modulus) raises `ZeroDivisionError` when `warm_up == 0`;
* otherwise `features = space.to_array()` (its exception propagates; a
  `None` result would make `gp.fit` raise `TypeError`);
* `gp.fit(features, labels)` records the training feature count
  (`n_features_in_ = features.shape[1]`, the common row length);
* `gp.predict(potential_params, ...)` validates the candidate matrix — its
  `len(space.domains)` columns — against the training feature count and
  raises `ValueError` on mismatch;
* the scoring step computes `ei` (see `eiVec`), after which
  `np.argmax(ei, axis=1)` is applied to the one-dimensional `ei` and
  raises `AxisError`. -/
def bayes_opt (rand : List ℚ) (gen : Nat → List ℚ)
    (gp : List (List ℚ) → List ℚ → List (List ℚ) → List ℚ × List ℚ)
    (cdfF pdfF : ℚ → ℚ)
    (s : SearchSpace) (n_samples : Nat) (warm_up : Int) : Except String (List ℚ) :=
  let count : Nat := s.objective.length
  if (count : Int) < warm_up then .ok rand
  else if warm_up = 0 then .error "ZeroDivisionError"
  else if Int.fmod count warm_up = 0 then .ok rand
  else
    match s.to_array with
    | .error e => .error e
    | .ok none => .error "TypeError"
    | .ok (some features) =>
        let labels := s.objective
        let fittedWidth := (features.head?.map List.length).getD 0
        let testX := (List.range n_samples).map gen
        if fittedWidth ≠ s.domains.length then .error "ValueError"
        else
          let pred := gp features labels testX
          let best := labels.foldl min (labels.headD 0)
          let _ei := eiVec cdfF pdfF best pred.1 pred.2
          .error "AxisError"

/-- The first element of a list attaining the strict-minimum of the
comparator `lt` (earlier elements win ties); this is the value that
Python's stable sort puts at index `[0]`. -/
def firstMinBy (lt : α → α → Bool) : List α → Option α
  | [] => none
  | x :: xs =>
    match firstMinBy lt xs with
    | none => some x
    | some m => if lt m x then some m else some x

theorem insIns_perm (lt : α → α → Bool) (x : α) (l : List α) :
    (insIns lt x l).Perm (x :: l) := by
  induction l with
  | nil => simp [insIns]
  | cons y ys ih =>
      by_cases h : lt y x
      · simpa [insIns, h] using ((ih.cons y).trans (List.Perm.swap x y ys))
      · simp [insIns, h]

theorem sortBy_perm (lt : α → α → Bool) (l : List α) : (sortBy lt l).Perm l := by
  induction l with
  | nil => simp [sortBy]
  | cons x xs ih => exact (insIns_perm lt x (sortBy lt xs)).trans (ih.cons x)

theorem head?_insIns (lt : α → α → Bool) (x : α) (l : List α) :
    (insIns lt x l).head? =
      some (match l.head? with
            | none => x
            | some y => if lt y x then y else x) := by
  cases l with
  | nil => rfl
  | cons y ys =>
      by_cases h : lt y x <;> simp [insIns, h]

theorem head?_sortBy (lt : α → α → Bool) (l : List α) :
    (sortBy lt l).head? = firstMinBy lt l := by
  induction l with
  | nil => rfl
  | cons x xs ih =>
      rw [sortBy, head?_insIns, ih]
      cases hfm : firstMinBy lt xs with
      | none => simp [firstMinBy, hfm]
      | some m => by_cases h : lt m x <;> simp [firstMinBy, hfm, h]

theorem firstMinBy_eq_none_iff (lt : α → α → Bool) (l : List α) :
    firstMinBy lt l = none ↔ l = [] := by
  cases l with
  | nil => simp [firstMinBy]
  | cons x xs =>
      cases hfm : firstMinBy lt xs with
      | none => simp [firstMinBy, hfm]
      | some m =>
          simp only [firstMinBy, hfm]
          split <;> simp

theorem firstMinBy_min_spec (key : α → ℚ) (l : List α) (m : α)
    (h : firstMinBy (fun a b => decide (key a < key b)) l = some m) :
    m ∈ l ∧ (∀ y ∈ l, key m ≤ key y) ∧
      ∃ pre post, l = pre ++ m :: post ∧ ∀ y ∈ pre, key m < key y := by
  induction l generalizing m with
  | nil => simp [firstMinBy] at h
  | cons x xs ih =>
      cases hfm : firstMinBy (fun a b => decide (key a < key b)) xs with
      | none =>
          have hxs : xs = [] := (firstMinBy_eq_none_iff _ _).1 hfm
          subst hxs
          have hxm : x = m := by simpa [firstMinBy] using h
          subst hxm
          exact ⟨by simp, by simp, [], [], by simp, by simp⟩
      | some m' =>
          have h' : (if decide (key m' < key x) = true then some m' else some x) = some m := by
            rw [firstMinBy, hfm] at h
            exact h
          obtain ⟨hm', hub, pre, post, hsplit, hpre⟩ := ih m' hfm
          by_cases hlt : key m' < key x
          · have hm : m' = m := by simpa [hlt] using h'
            subst hm
            refine ⟨List.mem_cons_of_mem x hm', ?_, x :: pre, post, by simp [hsplit], ?_⟩
            · intro y hy
              rcases List.mem_cons.1 hy with rfl | hy
              · exact le_of_lt hlt
              · exact hub y hy
            · intro y hy
              rcases List.mem_cons.1 hy with rfl | hy
              · exact hlt
              · exact hpre y hy
          · have hm : x = m := by simpa [hlt] using h'
            subst hm
            have hxm' : key x ≤ key m' := le_of_not_lt hlt
            refine ⟨by simp, ?_, [], xs, by simp, by simp⟩
            intro y hy
            rcases List.mem_cons.1 hy with rfl | hy
            · exact le_refl _
            · exact hxm'.trans (hub y hy)

theorem firstMinBy_max_spec (key : α → ℚ) (l : List α) (m : α)
    (h : firstMinBy (fun a b => decide (key b < key a)) l = some m) :
    m ∈ l ∧ ∀ y ∈ l, key y ≤ key m := by
  induction l generalizing m with
  | nil => simp [firstMinBy] at h
  | cons x xs ih =>
      cases hfm : firstMinBy (fun a b => decide (key b < key a)) xs with
      | none =>
          have hxs : xs = [] := (firstMinBy_eq_none_iff _ _).1 hfm
          subst hxs
          have hxm : x = m := by simpa [firstMinBy] using h
          subst hxm
          exact ⟨by simp, by simp⟩
      | some m' =>
          have h' : (if decide (key x < key m') = true then some m' else some x) = some m := by
            rw [firstMinBy, hfm] at h
            exact h
          obtain ⟨hm', hub⟩ := ih m' hfm
          by_cases hlt : key x < key m'
          · have hm : m' = m := by simpa [hlt] using h'
            subst hm
            refine ⟨List.mem_cons_of_mem x hm', ?_⟩
            intro y hy
            rcases List.mem_cons.1 hy with rfl | hy
            · exact le_of_lt hlt
            · exact hub y hy
          · have hm : x = m := by simpa [hlt] using h'
            subst hm
            refine ⟨by simp, ?_⟩
            intro y hy
            rcases List.mem_cons.1 hy with rfl | hy
            · exact le_refl _
            · exact (hub y hy).trans (le_of_not_lt hlt)

theorem sortBy_sorted_fix (l : List Domain)
    (h : List.Pairwise (fun a b => a.id ≤ b.id) l) : sortBy domLt l = l := by
  induction l with
  | nil => rfl
  | cons x xs ih =>
      obtain ⟨hx, hxs⟩ := List.pairwise_cons.1 h
      rw [sortBy, ih hxs]
      cases xs with
      | nil => rfl
      | cons y ys =>
          have : domLt y x = false := by
            simp [domLt]
            exact hx y (List.mem_cons_self y ys)
          simp [insIns, this]

theorem sortBy_pairwise (l : List Domain) :
    List.Pairwise (fun a b : Domain => a.id ≤ b.id) (sortBy domLt l) := by
  induction l with
  | nil => exact List.Pairwise.nil
  | cons x xs ih =>
      rw [sortBy]
      generalize hL : sortBy domLt xs = L at ih
      clear hL
      induction L with
      | nil => simp [insIns]
      | cons y ys ihy =>
          obtain ⟨hy, hys⟩ := List.pairwise_cons.1 ih
          by_cases h : domLt y x
          · rw [insIns, if_pos h]
            refine List.pairwise_cons.2 ⟨?_, ihy hys⟩
            intro z hz
            rcases List.mem_cons.1 ((insIns_perm domLt x ys).mem_iff.1 hz) with rfl | hz
            · simp [domLt] at h
              exact le_of_lt h
            · exact hy z hz
          · rw [insIns, if_neg h]
            refine List.pairwise_cons.2 ⟨?_, ih⟩
            intro z hz
            have hxy : x.id ≤ y.id := by
              simp [domLt] at h
              exact h
            rcases List.mem_cons.1 hz with rfl | hz
            · exact hxy
            · exact hxy.trans (hy z hz)

theorem zip_self_eq (l : List α) : ∀ p ∈ l.zip l, p.1 = p.2 := by
  induction l with
  | nil => simp
  | cons x xs ih =>
      intro p hp
      rcases List.mem_cons.1 hp with rfl | hp
      · rfl
      · exact ih p hp

theorem foldl_mul_complexity (l : List Domain) (a : ℚ) :
    l.foldl (fun a d => a * d.complexity) a = a * (l.map (fun d => d.complexity)).prod := by
  induction l generalizing a with
  | nil => simp
  | cons x xs ih =>
      rw [List.foldl_cons, ih, List.map_cons, List.prod_cons, mul_assoc]

theorem prodComplexity_eq_prod (l : List Domain) :
    prodComplexity l = (l.map (fun d => d.complexity)).prod := by
  rw [prodComplexity, foldl_mul_complexity, one_mul]

theorem prodComplexity_perm {l l' : List Domain} (h : l.Perm l') :
    prodComplexity l = prodComplexity l' := by
  rw [prodComplexity_eq_prod, prodComplexity_eq_prod, (h.map _).prod_eq]

theorem one_le_prodComplexity (l : List Domain)
    (h : ∀ d ∈ l, 1 ≤ d.complexity) : 1 ≤ prodComplexity l := by
  rw [prodComplexity_eq_prod]
  induction l with
  | nil => simp
  | cons x xs ih =>
      rw [List.map_cons, List.prod_cons]
      have hx : 1 ≤ x.complexity := h x (List.mem_cons_self x xs)
      have hxs : 1 ≤ (xs.map (fun d => d.complexity)).prod :=
        ih (fun d hd => h d (List.mem_cons_of_mem x hd))
      calc (1 : ℚ) = 1 * 1 := by ring
      _ ≤ x.complexity * (xs.map (fun d => d.complexity)).prod :=
          mul_le_mul hx hxs zero_le_one (zero_le_one.trans hx)

theorem mapM_trialRow_eq (doms : List Domain) (ts : List Trial)
    (h : ∀ t ∈ ts, t.objective.isSome ∧ doms.length ≤ t.hyperparameters.length) :
    ts.mapM (trialRow doms) = .ok (ts.map (trialRowFn doms)) := by
  induction ts with
  | nil => rfl
  | cons t ts ih =>
      obtain ⟨hobj, hlen⟩ := h t (List.mem_cons_self t ts)
      obtain ⟨o, ho⟩ := Option.isSome_iff_exists.1 hobj
      have hrow : trialRow doms t = .ok (trialRowFn doms t) := by
        rw [trialRow, if_pos hlen, ho, trialRowFn, ho]
        rfl
      rw [List.mapM_cons, hrow, ih (fun u hu => h u (List.mem_cons_of_mem t hu))]
      rfl

theorem fmod_eq_zero_iff_dvd (a b : Int) : a.fmod b = 0 ↔ b ∣ a := by
  constructor
  · intro h
    have hd := Int.fmod_def a b
    rw [h] at hd
    exact ⟨a.fdiv b, by linarith⟩
  · rintro ⟨k, rfl⟩
    rw [mul_comm]
    exact Int.mul_fmod_left k b

/-! ### Concrete example data used by witnesses and counterexamples -/

/-- A trial carrying objective `q`. -/
def exT (q : ℚ) : Trial :=
  { hyperparameters := [], results := none, objective := some q, errmsg := none, dirty := true }

/-- A trial with no objective recorded. -/
def tNone : Trial :=
  { hyperparameters := [], results := none, objective := none, errmsg := none, dirty := true }

/-- A freshly constructed empty space. -/
def sFresh : SearchSpace := SearchSpace.init 0 none ""

/-- The spec's optimum example: trials with objectives `[5, 2, 8, 2]`. -/
def ex6 : SearchSpace :=
  { id := 0, exp_key := "", trials := [exT 5, exT 2, exT 8, exT 2],
    _complexity := none, _uncertainty := none, domains := [], done := false }

/-! ### Claim C5 -/

/-- Counterexample to C5: `optimum()` on a Space with no objective-bearing
Trial raises `IndexError` (indexing `[0]` into the empty sorted list), not
`EmptyResultError`; no `EmptyResultError` exists in the sources. -/
theorem C5_counterexample :
    sFresh.optimum "min" = .error "IndexError" ∧
      ("IndexError" : String) ≠ "EmptyResultError" := by
  exact ⟨rfl, by decide⟩

/-- C5 (amended): calling `optimum` on a Search Space in which no Trial has
a recorded objective raises `IndexError` (surfaced directly, with no
retry), for every mode string. -/
theorem C5_optimum_empty (s : SearchSpace) (mode : String)
    (h : objBearing s = []) : s.optimum mode = .error "IndexError" := by
  simp only [SearchSpace.optimum, h, sortBy]

/-- Witness for C5: the amended statement at the concrete empty space. -/
theorem C5_optimum_empty_witness : sFresh.optimum "max" = .error "IndexError" :=
  C5_optimum_empty sFresh "max" rfl

/-! ### Claim C6 -/

/-- C6: on a Space with at least one objective-bearing Trial,
`optimum('min')` returns the first Trial (in trial-list order, restricted
to objective-bearing Trials) whose objective attains the minimum, and
`optimum('max')` returns a Trial whose objective attains the maximum. -/
theorem C6_optimum_minmax (s : SearchSpace) (hne : objBearing s ≠ []) :
    (∃ m, s.optimum "min" = .ok m ∧ m ∈ objBearing s ∧
      (∀ t ∈ objBearing s, objKey m ≤ objKey t) ∧
      ∃ pre post, objBearing s = pre ++ m :: post ∧ ∀ t ∈ pre, objKey m < objKey t) ∧
    (∃ M, s.optimum "max" = .ok M ∧ M ∈ objBearing s ∧
      ∀ t ∈ objBearing s, objKey t ≤ objKey M) := by
  constructor
  · cases hL : sortBy (fun a b => decide (objKey a < objKey b)) (objBearing s) with
    | nil =>
        have hp := sortBy_perm (fun a b => decide (objKey a < objKey b)) (objBearing s)
        rw [hL] at hp
        exact absurd hp.symm.eq_nil hne
    | cons m rest =>
        have hfm : firstMinBy (fun a b => decide (objKey a < objKey b)) (objBearing s) = some m := by
          rw [← head?_sortBy, hL]
          rfl
        obtain ⟨hmem, hub, pre, post, hsplit, hpre⟩ := firstMinBy_min_spec objKey _ m hfm
        refine ⟨m, ?_, hmem, hub, pre, post, hsplit, hpre⟩
        show (match sortBy (fun a b => decide (objKey a < objKey b)) (objBearing s) with
              | [] => (Except.error "IndexError" : Except String Trial)
              | t :: _ => Except.ok t) = Except.ok m
        rw [hL]
  · cases hL : sortBy (fun a b => decide (objKey b < objKey a)) (objBearing s) with
    | nil =>
        have hp := sortBy_perm (fun a b => decide (objKey b < objKey a)) (objBearing s)
        rw [hL] at hp
        exact absurd hp.symm.eq_nil hne
    | cons M rest =>
        have hfm : firstMinBy (fun a b => decide (objKey b < objKey a)) (objBearing s) = some M := by
          rw [← head?_sortBy, hL]
          rfl
        obtain ⟨hmem, hub⟩ := firstMinBy_max_spec objKey _ M hfm
        refine ⟨M, ?_, hmem, hub⟩
        show (match sortBy (fun a b => decide (objKey b < objKey a)) (objBearing s) with
              | [] => (Except.error "IndexError" : Except String Trial)
              | t :: _ => Except.ok t) = Except.ok M
        rw [hL]

/-- Witness for C6: the spec example with objectives `[5, 2, 8, 2]`. -/
theorem C6_optimum_minmax_witness :
    (∃ m, ex6.optimum "min" = .ok m ∧ m ∈ objBearing ex6 ∧
      (∀ t ∈ objBearing ex6, objKey m ≤ objKey t) ∧
      ∃ pre post, objBearing ex6 = pre ++ m :: post ∧ ∀ t ∈ pre, objKey m < objKey t) ∧
    (∃ M, ex6.optimum "max" = .ok M ∧ M ∈ objBearing ex6 ∧
      ∀ t ∈ objBearing ex6, objKey t ≤ objKey M) :=
  C6_optimum_minmax ex6 (by decide)

/-! ### Claim C4 -/

/-- A space with 11 recorded trials, none of which carries an objective. -/
def s4 : SearchSpace :=
  { id := 0, exp_key := "", trials := List.replicate 11 tNone,
    _complexity := none, _uncertainty := none, domains := [], done := false }

/-- Counterexample to C4: `s4` has 0 objective-bearing Trials (at most 10),
yet reading `uncertainty` does not return 1 — `len(self.trials) > 10`
sends it into the modeling branch, where `to_array` raises `TypeError` on
the `None` objectives. -/
theorem C4_counterexample :
    s4.objective.length ≤ 10 ∧
    s4.uncertaintyRead = .error "TypeError" ∧
    ∀ s', s4.uncertaintyRead ≠ .ok (1, s') := by
  refine ⟨by decide, rfl, ?_⟩
  intro s' h
  rw [show s4.uncertaintyRead = Except.error "TypeError" from rfl] at h
  exact Except.noConfusion h

/-- C4 (amended): the branch tests the total number of recorded Trials, not
the objective-bearing ones: every Search Space with at most 10 Trials in
total reports `uncertainty = 1` (and caches it). -/
theorem C4_uncertainty_floor (s : SearchSpace) (h : s.trials.length ≤ 10) :
    s.uncertaintyRead = .ok (1, { s with _uncertainty := some 1 }) := by
  rw [SearchSpace.uncertaintyRead, if_neg (by omega)]

/-- Witness for C4: the amended statement at a concrete space with 4
trials. -/
theorem C4_uncertainty_floor_witness :
    ex6.uncertaintyRead = .ok (1, { ex6 with _uncertainty := some 1 }) :=
  C4_uncertainty_floor ex6 (by decide)

/-! ### Claim C10 -/

/-- C10: a freshly constructed Space exports `uncertainty = null`; every
completed read of the `uncertainty` property overwrites the `_uncertainty`
cache with the value it returns, so a subsequent `to_json` exports that
value; in particular a fresh Space (no objective-bearing Trials) exports 1
rather than null after one read. -/
theorem C10_uncertainty_cache (nid : Nat) (ds : Option (List Domain)) (ek : String) :
    ((SearchSpace.init nid ds ek).to_json).uncertainty = none ∧
    (∀ s v s', SearchSpace.uncertaintyRead s = .ok (v, s') →
      s'._uncertainty = some v ∧ (SearchSpace.to_json s').uncertainty = some v) ∧
    (∃ s', (SearchSpace.init nid ds ek).uncertaintyRead = .ok (1, s') ∧
      (SearchSpace.to_json s').uncertainty = some 1) := by
  refine ⟨rfl, ?_, ?_⟩
  · intro s v s' h
    by_cases hlen : s.trials.length > 10
    · rw [SearchSpace.uncertaintyRead, if_pos hlen] at h
      cases hta : s.to_array with
      | error e => rw [hta] at h; exact absurd h (by simp)
      | ok x => rw [hta] at h; exact absurd h (by simp)
    · rw [SearchSpace.uncertaintyRead, if_neg hlen] at h
      have h' : (1 : ℚ) = v ∧ ({ s with _uncertainty := some 1 } : SearchSpace) = s' := by
        have := Except.ok.inj h
        exact ⟨congrArg Prod.fst this, congrArg Prod.snd this⟩
      obtain ⟨hv, hs⟩ := h'
      subst hs
      subst hv
      exact ⟨rfl, rfl⟩
  · exact ⟨{ SearchSpace.init nid ds ek with _uncertainty := some 1 }, rfl, rfl⟩

/-- Witness for C10 at the concrete fresh space: the read returns 1, the
cache holds 1 and `to_json` exports 1. -/
theorem C10_uncertainty_cache_witness :
    (sFresh.to_json).uncertainty = none ∧
    sFresh.uncertaintyRead = .ok (1, { sFresh with _uncertainty := some 1 }) ∧
    ({ sFresh with _uncertainty := some 1 } : SearchSpace)._uncertainty = some 1 ∧
    (SearchSpace.to_json { sFresh with _uncertainty := some 1 }).uncertainty = some 1 := by
  refine ⟨(C10_uncertainty_cache 0 none "").1, rfl, ?_⟩
  exact (C10_uncertainty_cache 0 none "").2.1 sFresh 1 _ rfl

/-! ### Claim C9 -/

/-- C9: for a Space whose Domains all have complexity at least 1, the first
read of `complexity` returns the product of the Domain complexities (1 for
an empty Domain list, since the fold starts at 1.0), which is at least 1;
the value is stored in `_complexity` and a second read returns the cached
value unchanged; and a Space constructed with an additional Domain of
complexity 1 yields the same value. -/
theorem C9_complexity (nid nid' : Nat) (ds : List Domain) (ek ek' : String) (d : Domain)
    (h1 : ∀ x ∈ ds, 1 ≤ x.complexity) (h2 : d.complexity = 1) :
    (SearchSpace.init nid (some ds) ek).complexityRead.1 = prodComplexity ds ∧
    1 ≤ (SearchSpace.init nid (some ds) ek).complexityRead.1 ∧
    (SearchSpace.init nid (some ds) ek).complexityRead.2._complexity =
      some (SearchSpace.init nid (some ds) ek).complexityRead.1 ∧
    (SearchSpace.init nid (some ds) ek).complexityRead.2.complexityRead =
      (SearchSpace.init nid (some ds) ek).complexityRead ∧
    (SearchSpace.init nid' (some (d :: ds)) ek').complexityRead.1 = prodComplexity ds := by
  have e1 : (SearchSpace.init nid (some ds) ek).complexityRead.1 =
      prodComplexity (sortBy domLt ds) := rfl
  have hperm : prodComplexity (sortBy domLt ds) = prodComplexity ds :=
    prodComplexity_perm (sortBy_perm _ _)
  refine ⟨e1.trans hperm, ?_, rfl, rfl, ?_⟩
  · rw [e1.trans hperm]
    exact one_le_prodComplexity ds h1
  · have e2 : (SearchSpace.init nid' (some (d :: ds)) ek').complexityRead.1 =
        prodComplexity (sortBy domLt (d :: ds)) := rfl
    rw [e2, prodComplexity_perm (sortBy_perm _ _), prodComplexity_eq_prod,
      prodComplexity_eq_prod, List.map_cons, List.prod_cons, h2, one_mul]

/-- Domains used by the C9 witness. -/
def dW0 : Domain := ⟨0, 2, fun q => q + 1⟩

/-- Domains used by the C9 witness. -/
def dW1 : Domain := ⟨1, 3, fun q => 2 * q⟩

/-- Domain with complexity 1 used by the C9 witness. -/
def dW2 : Domain := ⟨7, 1, fun q => q⟩

/-- Witness for C9 at concrete domains of complexities `[3, 2]` plus an
extra domain of complexity 1. -/
theorem C9_complexity_witness :
    (SearchSpace.init 0 (some [dW1, dW0]) "e").complexityRead.1 = prodComplexity [dW1, dW0] ∧
    1 ≤ (SearchSpace.init 0 (some [dW1, dW0]) "e").complexityRead.1 ∧
    (SearchSpace.init 0 (some [dW1, dW0]) "e").complexityRead.2._complexity =
      some (SearchSpace.init 0 (some [dW1, dW0]) "e").complexityRead.1 ∧
    (SearchSpace.init 0 (some [dW1, dW0]) "e").complexityRead.2.complexityRead =
      (SearchSpace.init 0 (some [dW1, dW0]) "e").complexityRead ∧
    (SearchSpace.init 1 (some [dW2, dW1, dW0]) "e").complexityRead.1 =
      prodComplexity [dW1, dW0] :=
  C9_complexity 0 1 [dW1, dW0] "e" "e" dW2 (by decide) (by decide)

/-! ### Claim C8 -/

/-- C8: reconstructing a Space from the output of `to_json()` (full mode)
yields a Space equal to the original under the Space equality contract,
with the same number of Trials, every reconstructed Trial marked
not-dirty, and both cache scalars restored verbatim.  The hypothesis that
the Domain list is sorted holds for every Space built by `__init__`
(see `sortBy_pairwise`). -/
theorem C8_roundtrip (nid : Nat) (s : SearchSpace)
    (hs : List.Pairwise (fun a b : Domain => a.id ≤ b.id) s.domains) :
    spaceEq (SearchSpace.from_json nid s.to_json) s ∧
    (SearchSpace.from_json nid s.to_json).trials.length = s.trials.length ∧
    (∀ t ∈ (SearchSpace.from_json nid s.to_json).trials, t.dirty = false) ∧
    (SearchSpace.from_json nid s.to_json)._complexity = s._complexity ∧
    (SearchSpace.from_json nid s.to_json)._uncertainty = s._uncertainty := by
  have hdom : (SearchSpace.from_json nid s.to_json).domains = s.domains := by
    show sortBy domLt ((s.domains.map Domain.to_json).map Domain.from_json) = s.domains
    rw [List.map_map, show (Domain.from_json ∘ Domain.to_json) = id from rfl, List.map_id]
    exact sortBy_sorted_fix s.domains hs
  refine ⟨⟨by rw [hdom], ?_⟩, ?_, ?_, rfl, rfl⟩
  · rw [hdom]
    exact zip_self_eq s.domains
  · show ((s.trials.map Trial.to_json).map _).length = s.trials.length
    simp
  · intro t ht
    have ht' : t ∈ (s.trials.map Trial.to_json).map (fun u =>
        ({ hyperparameters := u.hyperparameters, results := u.results,
           objective := u.objective, errmsg := u.errmsg, dirty := false } : Trial)) := ht
    obtain ⟨u, _, rfl⟩ := List.mem_map.1 ht'
    rfl

/-- The space round-tripped by the C8 witness: two sorted domains, one
evaluated and one pending trial, both caches populated. -/
def s8 : SearchSpace :=
  { id := 3, exp_key := "k", trials := [exT 5, tNone],
    _complexity := some 6, _uncertainty := some (1/2),
    domains := [dW0, dW1], done := false }

/-- Witness for C8 at the concrete space `s8`. -/
theorem C8_roundtrip_witness :
    spaceEq (SearchSpace.from_json 9 s8.to_json) s8 ∧
    (SearchSpace.from_json 9 s8.to_json).trials.length = s8.trials.length ∧
    (∀ t ∈ (SearchSpace.from_json 9 s8.to_json).trials, t.dirty = false) ∧
    (SearchSpace.from_json 9 s8.to_json)._complexity = s8._complexity ∧
    (SearchSpace.from_json 9 s8.to_json)._uncertainty = s8._uncertainty :=
  C8_roundtrip 9 s8 (by simp [s8, dW0, dW1])

/-! ### Claim C7 -/

theorem getD_append_left (l l' : List α) (d : α) (j : Nat) (h : j < l.length) :
    (l ++ l').getD j d = l.getD j d := by
  rw [List.getD_eq_getElem?_getD, List.getD_eq_getElem?_getD, List.getElem?_append, if_pos h]

theorem getD_range_map (f : Nat → α) (d j : Nat) (hj : j < d) (dflt : α) :
    ((List.range d).map f).getD j dflt = f j := by
  have hlen : j < ((List.range d).map f).length := by simp [hj]
  rw [List.getD_eq_getElem?_getD, List.getElem?_eq_getElem hlen]
  simp

/-- A space with one recorded trial whose objective is unset. -/
def s7 : SearchSpace :=
  { id := 0, exp_key := "", trials := [tNone],
    _complexity := none, _uncertainty := none, domains := [], done := false }

/-- Counterexample to C7: a Space with one Trial whose objective is unset
does not get a matrix with a placeholder trailing value — `to_array`
raises `TypeError` when numpy adds the `None`-carrying row to the float32
buffer, so no matrix at all is produced. -/
theorem C7_counterexample :
    s7.trials.length = 1 ∧
    s7.to_array = .error "TypeError" ∧
    ∀ m, s7.to_array ≠ .ok (some m) := by
  refine ⟨rfl, rfl, ?_⟩
  intro m h
  rw [show s7.to_array = Except.error "TypeError" from rfl] at h
  exact Except.noConfusion h

/-- C7 (amended): `to_array()` returns `None` for a Space with zero Trials;
for a nonempty trial list in which every Trial has an objective it returns
one row per Trial, each of length `len(domains) + 1`, whose `j`-th entry
(`j < len(domains)`) is `domains[j].map_to_domain` of the Trial's `j`-th
hyperparameter and whose final entry is the Trial's objective; a Trial with
an unset objective instead makes `to_array` raise `TypeError`
(see the counterexample). -/
theorem C7_to_array (s : SearchSpace)
    (hlen : ∀ t ∈ s.trials, s.domains.length ≤ t.hyperparameters.length) :
    (s.trials = [] → s.to_array = .ok none) ∧
    (s.trials ≠ [] → (∀ t ∈ s.trials, t.objective.isSome) →
      s.to_array = .ok (some (s.trials.map (trialRowFn s.domains))) ∧
      (s.trials.map (trialRowFn s.domains)).length = s.trials.length ∧
      ∀ t ∈ s.trials,
        (trialRowFn s.domains t).length = s.domains.length + 1 ∧
        (∀ j, j < s.domains.length →
          (trialRowFn s.domains t).getD j 0 =
            (s.domains.getD j default).mapToDomain (t.hyperparameters.getD j 0)) ∧
        (trialRowFn s.domains t).getLast? = some (t.objective.getD 0)) := by
  constructor
  · intro h
    simp [SearchSpace.to_array, h]
  · intro hne hobj
    have hpos : s.trials.length > 0 := List.length_pos.2 hne
    have harr : s.to_array = .ok (some (s.trials.map (trialRowFn s.domains))) := by
      rw [SearchSpace.to_array, if_pos hpos,
        mapM_trialRow_eq s.domains s.trials (fun t ht => ⟨hobj t ht, hlen t ht⟩)]
      rfl
    refine ⟨harr, by simp, ?_⟩
    intro t ht
    refine ⟨by simp [trialRowFn], ?_, ?_⟩
    · intro j hj
      rw [trialRowFn, getD_append_left _ _ _ _ (by simp [hj]), getD_range_map _ _ _ hj]
    · rw [trialRowFn]
      exact List.getLast?_concat _

/-- The space used by the C7 witness: one domain, two fully evaluated
trials. -/
def sC7 : SearchSpace :=
  { id := 0, exp_key := "", trials :=
      [{ hyperparameters := [4], results := none, objective := some 9, errmsg := none, dirty := false },
       { hyperparameters := [6], results := none, objective := some 3, errmsg := none, dirty := false }],
    _complexity := none, _uncertainty := none, domains := [dW0], done := false }

/-- Witness for C7: the empty case at the fresh space and the populated
case at `sC7`. -/
theorem C7_to_array_witness :
    sFresh.to_array = .ok none ∧
    sC7.to_array = .ok (some (sC7.trials.map (trialRowFn sC7.domains))) ∧
    (∀ t ∈ sC7.trials,
      (trialRowFn sC7.domains t).length = sC7.domains.length + 1 ∧
      (∀ j, j < sC7.domains.length →
        (trialRowFn sC7.domains t).getD j 0 =
          (sC7.domains.getD j default).mapToDomain (t.hyperparameters.getD j 0)) ∧
      (trialRowFn sC7.domains t).getLast? = some (t.objective.getD 0)) := by
  have h2 := (C7_to_array sC7 (by decide)).2 (by decide) (by decide)
  exact ⟨(C7_to_array sFresh (by decide)).1 rfl, h2.1, h2.2.2⟩

instance {ε α : Type} [DecidableEq ε] [DecidableEq α] : DecidableEq (Except ε α) := fun x y =>
  match x, y with
  | .error a, .error b =>
      if h : a = b then isTrue (by rw [h])
      else isFalse (fun hc => h (Except.error.inj hc))
  | .ok a, .ok b =>
      if h : a = b then isTrue (by rw [h])
      else isFalse (fun hc => h (Except.ok.inj hc))
  | .error _, .ok _ => isFalse (fun hc => Except.noConfusion hc)
  | .ok _, .error _ => isFalse (fun hc => Except.noConfusion hc)

/-! ### Claim C3 -/

/-- C3: in the scoring step, a candidate whose predicted standard deviation
is exactly 0 gets expected improvement exactly 0 (a finite value, never
`nan`, the division being suppressed rather than raised — `pdiv` is total);
a candidate with positive sigma gets
`ei = (mu - gamma) * cdf(gamma) + sigma * pdf(gamma)` with
`gamma = (mu - best) / sigma`, for any finite values of the standard normal
cdf and pdf. -/
theorem C3_expected_improvement (cdfF pdfF : ℚ → ℚ) (best mu sigma : ℚ) :
    (sigma = 0 →
      eiCand cdfF pdfF best mu sigma = .fin 0 ∧
      eiCand cdfF pdfF best mu sigma ≠ .nan) ∧
    (0 < sigma →
      eiCand cdfF pdfF best mu sigma =
        .fin ((mu - (mu - best) / sigma) * cdfF ((mu - best) / sigma) +
          sigma * pdfF ((mu - best) / sigma))) := by
  constructor
  · intro h
    rw [eiCand, if_pos h]
    exact ⟨rfl, by simp⟩
  · intro h
    have hne : sigma ≠ 0 := ne_of_gt h
    rw [eiCand, if_neg hne]
    show PFloat.padd
      (PFloat.pmul (PFloat.psub (.fin mu) (PFloat.pdiv (PFloat.psub (.fin mu) (.fin best)) (.fin sigma)))
        (normCdf cdfF (PFloat.pdiv (PFloat.psub (.fin mu) (.fin best)) (.fin sigma))))
      (PFloat.pmul (.fin sigma)
        (normPdf pdfF (PFloat.pdiv (PFloat.psub (.fin mu) (.fin best)) (.fin sigma)))) = _
    simp only [PFloat.psub, PFloat.pneg, PFloat.padd, PFloat.pmul, PFloat.pdiv,
      normCdf, normPdf, if_neg hne, ← sub_eq_add_neg]

/-- Witness for C3: both branches at concrete inputs; with
`cdf ≡ 1/2`, `pdf ≡ 2/5`, `best = 3`, `mu = 7`, `sigma = 2` the positive
branch gives `(7 - 2) * (1/2) + 2 * (2/5)`. -/
theorem C3_expected_improvement_witness :
    (eiCand (fun _ => 1/2) (fun _ => 2/5) 3 3 0 = .fin 0 ∧
      eiCand (fun _ => 1/2) (fun _ => 2/5) 3 3 0 ≠ .nan) ∧
    eiCand (fun _ => 1/2) (fun _ => 2/5) 3 7 2 =
      .fin ((7 - (7 - 3) / 2) * (1/2) + 2 * (2/5)) :=
  ⟨(C3_expected_improvement (fun _ => 1/2) (fun _ => 2/5) 3 3 0).1 rfl,
   (C3_expected_improvement (fun _ => 1/2) (fun _ => 2/5) 3 7 2).2 (by norm_num)⟩

/-! ### Claim C2 -/

/-- The domain of the C2 failing input. -/
def dB : Domain := ⟨0, 2, fun q => q⟩

/-- Eleven fully evaluated trials on one domain. -/
def trialsB : List Trial :=
  (List.range 11).map (fun i =>
    { hyperparameters := [(i : ℚ)], results := none,
      objective := some ((i : ℚ) + 1), errmsg := none, dirty := false })

/-- The C2 failing input: one domain and 11 objective-bearing trials, so
`bayes_opt` with `warm_up = 10` takes the modeling branch. -/
def sB : SearchSpace :=
  { id := 0, exp_key := "", trials := trialsB,
    _complexity := none, _uncertainty := none, domains := [dB], done := false }

/-- C2 is a code bug: the matrix `bayes_opt` passes to `gp.fit` is the full
`to_array()` output, whose rows have `len(domains) + 1` entries — the
objective column included — rather than the `len(domains)` feature columns
the claim describes; consequently `gp.predict` on the
`len(domains)`-column candidate matrix always fails its feature-count
validation, and the engine raises `ValueError` instead of returning a
modeled vector, for every choice of the random/GP oracles. -/
theorem C2_fit_matrix_mismatch :
    (∃ m, sB.to_array = .ok (some m) ∧
      m.head?.map List.length = some (sB.domains.length + 1) ∧
      sB.domains.length + 1 ≠ sB.domains.length) ∧
    (∀ rand gen gp cdfF pdfF,
      bayes_opt rand gen gp cdfF pdfF sB 10 10 = .error "ValueError") := by
  constructor
  · exact ⟨trialsB.map (trialRowFn [dB]), rfl, rfl, by decide⟩
  · intro rand gen gp cdfF pdfF
    rfl

/-! ### Claim C1 -/

/-- Counterexample to C1: at `warm_up = 0` and 0 objective-bearing Trials
(0 is an exact multiple of every integer, itself included), the claim
promises the random sampler's vector, but the gate's `len % warm_up`
raises `ZeroDivisionError` instead — the left disjunct `0 < 0` is false,
so Python evaluates `0 % 0`. -/
theorem C1_counterexample :
    ¬ (bayes_opt [37] (fun _ => []) (fun _ _ _ => ([], [])) (fun _ => 0) (fun _ => 0)
        sFresh 10 0 = .ok [37] ↔
      ((sFresh.objective.length : Int) < 0 ∨
        (0 : Int) ∣ (sFresh.objective.length : Int))) := by
  decide

/-- C1 (amended): for every nonzero `warm_up`, `bayes_opt` returns the
random sampler's vector exactly when the number of objective-bearing
Trials is below `warm_up` or an exact multiple of `warm_up`; in every other
case the modeling branch runs and does not return the random vector (on
this code it always raises).  In particular, with `warm_up = 10`, calls at
0–9 and at 10, 20, 30 objective-bearing Trials return the random vector. -/
theorem C1_warmup_gate (rand : List ℚ) (gen : Nat → List ℚ)
    (gp : List (List ℚ) → List ℚ → List (List ℚ) → List ℚ × List ℚ)
    (cdfF pdfF : ℚ → ℚ) (s : SearchSpace) (n_samples : Nat) (warm_up : Int)
    (hw : warm_up ≠ 0) :
    bayes_opt rand gen gp cdfF pdfF s n_samples warm_up = .ok rand ↔
      ((s.objective.length : Int) < warm_up ∨
        warm_up ∣ (s.objective.length : Int)) := by
  by_cases hlt : (s.objective.length : Int) < warm_up
  · rw [bayes_opt, if_pos hlt]
    simp [hlt]
  · rw [bayes_opt, if_neg hlt, if_neg hw]
    by_cases hmod : Int.fmod (s.objective.length : Int) warm_up = 0
    · rw [if_pos hmod]
      simp [hlt, (fmod_eq_zero_iff_dvd _ _).1 hmod]
    · rw [if_neg hmod]
      have hrhs : ¬ ((s.objective.length : Int) < warm_up ∨
          warm_up ∣ (s.objective.length : Int)) := by
        rintro (h | h)
        · exact hlt h
        · exact hmod ((fmod_eq_zero_iff_dvd _ _).2 h)
      have hlhs : ∀ e : String,
          (Except.error e : Except String (List ℚ)) ≠ .ok rand := fun e h =>
        Except.noConfusion h
      cases hta : s.to_array with
      | error e => simp only [hta, hrhs, iff_false]; exact hlhs e
      | ok x =>
          cases x with
          | none => simp only [hta, hrhs, iff_false]; exact hlhs "TypeError"
          | some features =>
              simp only [hta, hrhs, iff_false]
              by_cases hwid : (features.head?.map List.length).getD 0 ≠ s.domains.length
              · rw [if_pos hwid]
                exact hlhs "ValueError"
              · rw [if_neg hwid]
                exact hlhs "AxisError"

/-- Witness for C1: the amended gate at a fresh space (0 objective-bearing
Trials) with `warm_up = 10` returns the random sampler's sentinel vector. -/
theorem C1_warmup_gate_witness :
    bayes_opt [37] (fun _ => []) (fun _ _ _ => ([], [])) (fun _ => 0) (fun _ => 0)
      sFresh 10 10 = .ok [37] :=
  (C1_warmup_gate [37] (fun _ => []) (fun _ _ _ => ([], [])) (fun _ => 0) (fun _ => 0)
    sFresh 10 10 (by decide)).2 (Or.inl (by decide))

end Pyrameter
